import Mathlib

/-!
Format negotiation and pluggable codecs of multiproto-handler-example: a
shallow embedding of `multiproto-handlers.go`.

* Go strings and byte slices are Lean strings; `string(data)` and
  `[]byte(s)` are the identity.
* A Go `error` is `Option String`: `none` is `nil`, `some text` is an error
  whose `Error()` is `text`.
* A function that may panic returns `Result`, an `Except` over `Panic`.
* A function that writes through a pointer returns the new pointee next to
  its ordinary results.
* `http.ResponseWriter` is the list of calls made on it.
* `encoding/json` and `encoding/xml` are outside the repository and enter
  as the parameter `Encoding`.
-/

set_option autoImplicit false

namespace Multiproto

/-! ## Go run time -/

/-- Run-time panics this program can raise. -/
inductive Panic where
  | indexOutOfRange (index len : Nat)
  | nilDereference
  deriving DecidableEq, Repr

deriving instance DecidableEq for Except

/-- Outcome of a Go call that may panic. -/
abbrev Result (α : Type) : Type := Except Panic α

/-- A Go `error` value, by its text. -/
abbrev GoError : Type := Option String

/-- Slice indexing `xs[i]` with Go's bounds check. -/
def index (xs : List String) (i : Nat) : Result String :=
  match xs.get? i with
  | some x => .ok x
  | none => .error (.indexOutOfRange i xs.length)

/-! ## Package `strings` -/

/-- Scan of `strings.Split` for a non-empty separator: `cur` is the segment
being collected (reversed) and `skip` counts the bytes of a matched separator
that are still to be dropped. Separators are matched leftmost first and do not
overlap. -/
def genSplit (sep : List Char) : List Char → Nat → List Char → List (List Char)
  | [], _, cur => [cur.reverse]
  | _ :: rest, skip + 1, cur => genSplit sep rest skip cur
  | c :: rest, 0, cur =>
    if sep.isPrefixOf (c :: rest) then
      cur.reverse :: genSplit sep rest (sep.length - 1) []
    else
      genSplit sep rest 0 (c :: cur)

/-- `strings.Split(s, sep)`: the substrings of `s` between the occurrences of
`sep`; with an empty `sep` the string is cut after every character. -/
def Split (s sep : String) : List String :=
  if sep.data = [] then s.data.map fun c => String.mk [c]
  else (genSplit sep.data s.data 0 []).map String.mk

/-- `strings.Join(elems, sep)`. -/
def Join (elems : List String) (sep : String) : String :=
  match elems with
  | [] => ""
  | e :: rest => rest.foldl (fun acc x => acc ++ sep ++ x) e

/-! ## Business logic -/

/-- Source: `type msg struct`. -/
structure msg where
  Name : String
  Text : String
  deriving DecidableEq, Repr

/-- Source: `type reply struct`. -/
structure reply where
  Status : String
  Text : String
  deriving DecidableEq, Repr

/-- Zero value of `msg`, the content of `var m msg`. -/
def msg.zero : msg := ⟨"", ""⟩

/-- Source: `func validate(m msg) bool`. -/
def validate (m : msg) : Bool :=
  if m.Name != "" && m.Text != "" then true else false

/-- Source: `func processMsg(m msg) reply`. -/
def processMsg (m : msg) : reply :=
  if validate m then ⟨"OK", "got msg::" ++ m.Text⟩
  else ⟨"NOTOK", "did not get it"⟩

/-! ## CSV methods of the domain types -/

/-- Source: `func (m *msg) csvUnmarshal(data []byte) error`, for a non-nil
receiver whose pointee is `m`; returns the pointee after the two assignments
together with the returned error. -/
def msg.csvUnmarshal (m : msg) (data : String) : Result (msg × GoError) := do
  let strs := Split data ","
  let m := { m with Name := ← index strs 0 }
  let m := { m with Text := ← index strs 1 }
  return (m, none)

/-- Source: `func (r reply) csvMarshal() ([]byte, error)`. -/
def reply.csvMarshal (r : reply) : String × GoError :=
  (Join [r.Status, r.Text] ",", none)

/-! ## Interface values -/

/-- Dynamic types an `interface{}` argument can have. `csvUnmarshal` and
`csvMarshal` are unexported, so only the types of this package can have them:
`msg`, `reply` and the pointers to them. Every value of a type declared
elsewhere (the nil interface included) is `foreign`. -/
inductive Dyn where
  | msg
  | ptrMsg
  | nilPtrMsg
  | reply
  | ptrReply
  | nilPtrReply
  | foreign
  deriving DecidableEq, Repr

/-- Content of a value of each dynamic type; for a non-nil pointer, the
pointee. -/
abbrev Dyn.Val : Dyn → Type
  | .msg => Multiproto.msg
  | .ptrMsg => Multiproto.msg
  | .nilPtrMsg => Unit
  | .reply => Multiproto.reply
  | .ptrReply => Multiproto.reply
  | .nilPtrReply => Unit
  | .foreign => Unit

/-- Type of `json.Unmarshal`, `xml.Unmarshal` and `fromCSV`: the returned
value is the content of `v` after the call. -/
abbrev FromFn : Type := String → (t : Dyn) → t.Val → Result (t.Val × GoError)

/-- Type of `json.Marshal`, `xml.Marshal` and `toCSV`. -/
abbrev ToFn : Type := (t : Dyn) → t.Val → Result (String × GoError)

/-- Source: `type csvUnmarshaler interface`. The type assertion
`v.(csvUnmarshaler)` yields the bound method when the method set of the
dynamic type has `csvUnmarshal`, which is declared on `*msg` alone. -/
def assertCsvUnmarshaler : (t : Dyn) → t.Val → Option (String → Result (t.Val × GoError))
  | .ptrMsg, m => some fun data => m.csvUnmarshal data
  | .nilPtrMsg, _ => some fun _ => .error .nilDereference
  | _, _ => none

/-- Source: `type csvMarshaler interface`. The type assertion
`v.(csvMarshaler)`; `csvMarshal` is declared on `reply`, so it is in the method
set of `reply` and of `*reply`. -/
def assertCsvMarshaler : (t : Dyn) → t.Val → Option (Unit → Result (String × GoError))
  | .reply, r => some fun _ => .ok r.csvMarshal
  | .ptrReply, r => some fun _ => .ok r.csvMarshal
  | .nilPtrReply, _ => some fun _ => .error .nilDereference
  | _, _ => none

/-- Source: `func fromCSV(data []byte, v interface{}) error`. -/
def fromCSV : FromFn := fun data t v =>
  match assertCsvUnmarshaler t v with
  | none => .ok (v, some "Csver interface not impled")
  | some csvUnmarshal => csvUnmarshal data

/-- Source: `func toCSV(v interface{}) ([]byte, error)`. -/
def toCSV : ToFn := fun t v =>
  match assertCsvMarshaler t v with
  | none => .ok ("", some "Csver interface not impled")
  | some csvMarshal => csvMarshal ()

/-! ## Registry -/

/-- The four functions of `encoding/json` and `encoding/xml` the registry
refers to. -/
structure Encoding where
  jsonUnmarshal : FromFn
  jsonMarshal : ToFn
  xmlUnmarshal : FromFn
  xmlMarshal : ToFn

/-- Element type of the map `protos`; `none` is a nil function value. -/
structure Proto where
  From : Option FromFn
  To : Option ToFn

/-- Source: `var protos = map[string]struct{...}`. -/
def protos (enc : Encoding) : List (String × Proto) :=
  [ ("json", ⟨some enc.jsonUnmarshal, some enc.jsonMarshal⟩),
    ("xml", ⟨some enc.xmlUnmarshal, some enc.xmlMarshal⟩),
    ("csv", ⟨some fromCSV, some toCSV⟩) ]

/-- Map index `protos[key]`: the zero struct for a missing key. -/
def protosAt (enc : Encoding) (key : String) : Proto :=
  match (protos enc).lookup key with
  | some p => p
  | none => ⟨none, none⟩

/-- Second result of `_, ok := protos[key]`. -/
def protosOk (enc : Encoding) (key : String) : Bool :=
  ((protos enc).lookup key).isSome

/-- Call of a function value of type `From`; a nil function panics. -/
def callFrom (fn : Option FromFn) (data : String) (t : Dyn) (v : t.Val) :
    Result (t.Val × GoError) :=
  match fn with
  | some g => g data t v
  | none => .error .nilDereference

/-- Call of a function value of type `To`; a nil function panics. -/
def callTo (fn : Option ToFn) (t : Dyn) (v : t.Val) : Result (String × GoError) :=
  match fn with
  | some g => g t v
  | none => .error .nilDereference

/-! ## Package `net/http` -/

/-- An `io.ReadCloser`, by what `ioutil.ReadAll` returns for it. -/
structure ReadCloser where
  data : String
  err : GoError

/-- `ioutil.ReadAll(r)`. -/
def ReadAll (r : ReadCloser) : String × GoError := (r.data, r.err)

/-- `http.Header`; `Get` compares keys after canonicalisation, the entries
here are keyed by the spelling the program uses. -/
abbrev Header : Type := List (String × List String)

/-- `Header.Get(key)`: the first value of the key, `""` when there is none. -/
def Header.Get (h : Header) (key : String) : String :=
  match h.lookup key with
  | some (v :: _) => v
  | _ => ""

/-- The fields of `*http.Request` the program reads; `Body` is `none` for a
nil body. -/
structure Request where
  Method : String
  Header : Multiproto.Header
  Body : Option ReadCloser

/-- A call on the `http.ResponseWriter`. -/
inductive Call where
  | Error (text : String) (code : Nat)
  | Write (bytes : String)
  deriving DecidableEq, Repr

/-- An `http.ResponseWriter`: the calls made on it so far, oldest first. -/
structure ResponseWriter where
  calls : List Call
  deriving DecidableEq, Repr

/-- `http.Error(w, text, code)`. -/
def httpError (w : ResponseWriter) (text : String) (code : Nat) : ResponseWriter :=
  ⟨w.calls ++ [.Error text code]⟩

/-- `w.Write(bytes)`. -/
def ResponseWriter.Write (w : ResponseWriter) (bytes : String) : ResponseWriter :=
  ⟨w.calls ++ [.Write bytes]⟩

/-- `http.StatusOK`. -/
def StatusOK : Nat := 200

/-- `http.StatusBadRequest`. -/
def StatusBadRequest : Nat := 400

/-- `http.StatusInternalServerError`. -/
def StatusInternalServerError : Nat := 500

/-- `http.MethodPost`. -/
def MethodPost : String := "POST"

/-- Status line of the response: the code of the first call, where a `Write`
with no status set before it sends `StatusOK`. -/
def ResponseWriter.status (w : ResponseWriter) : Nat :=
  match w.calls with
  | .Error _ code :: _ => code
  | _ => StatusOK

/-- `http.HandlerFunc`: the writer after the call, or the panic that ended
it. -/
abbrev HandlerFunc : Type := ResponseWriter → Request → Result ResponseWriter

/-! ## Handlers -/

/-- Source: `func Decode(r io.ReadCloser, proto func([]byte, interface{}) error,
strct interface{}) error`. -/
def Decode (r : Option ReadCloser) (proto : Option FromFn) (t : Dyn) (strct : t.Val) :
    Result (t.Val × GoError) :=
  match r with
  | none => .ok (strct, some "nothing to do")
  | some r =>
    match ReadAll r with
    | (_, some _) => .ok (strct, some "read req body err")
    | (data, none) => callFrom proto data t strct

/-- Source: `func ProcessMsgHandlerFunc(protoFrom, protoTo string)
http.HandlerFunc`. -/
def ProcessMsgHandlerFunc (enc : Encoding) (protoFrom protoTo : String) : HandlerFunc :=
  fun w r =>
    match Decode r.Body (protosAt enc protoFrom).From .ptrMsg msg.zero with
    | .error p => .error p
    | .ok (_, some err) => .ok (httpError w err StatusBadRequest)
    | .ok (m, none) =>
      match callTo (protosAt enc protoTo).To .reply (processMsg m) with
      | .error p => .error p
      | .ok (_, some err) => .ok (httpError w err StatusInternalServerError)
      | .ok (response, none) => .ok (w.Write response)

/-- Source: `func SetMethod(method string, f http.HandlerFunc)
http.HandlerFunc`. -/
def SetMethod (method : String) (f : HandlerFunc) : HandlerFunc :=
  fun w r =>
    if r.Method = method then f w r
    else .ok (httpError w "wrong http method" StatusBadRequest)

/-- Source: `func SetProto(f func(string, string) http.HandlerFunc)
http.HandlerFunc`. -/
def SetProto (enc : Encoding) (f : String → String → HandlerFunc) : HandlerFunc :=
  fun w r => do
    let conttype := Split (r.Header.Get "Content-type") "/"
    if conttype.length = 2 then
      if protosOk enc (← index conttype 1) then
        let protoFrom ← index conttype 1
        let restype := Split (r.Header.Get "Response-type") "/"
        let mut protoTo := protoFrom
        if restype.length = 2 then
          if protosOk enc (← index restype 1) then
            protoTo ← index restype 1
        return ← f protoFrom protoTo w r
    return httpError w "not supported proto" StatusBadRequest

/-- Source: `func main`: the handler registered for `/process`. -/
def processRoute (enc : Encoding) : HandlerFunc :=
  SetMethod MethodPost (SetProto enc (ProcessMsgHandlerFunc enc))

/-- An `Encoding` whose four functions reject every input; it serves to
instantiate statements that hold for every `Encoding`. -/
def rejecting : Encoding where
  jsonUnmarshal := fun _ _ v => .ok (v, some "rejected")
  jsonMarshal := fun _ _ => .ok ("", some "rejected")
  xmlUnmarshal := fun _ _ v => .ok (v, some "rejected")
  xmlMarshal := fun _ _ => .ok ("", some "rejected")

/-! ## Lemmas on `Split` -/

theorem genSplit_single (d : Char) (s cur : List Char) :
    genSplit [d] s 0 cur =
      (cur.reverse ++ s.takeWhile (· != d)) ::
        (match s.dropWhile (· != d) with
          | [] => []
          | _ :: rest => genSplit [d] rest 0 []) := by
  induction s generalizing cur with
  | nil => simp [genSplit]
  | cons c rest ih =>
    by_cases h : d = c
    · subst h
      simp [genSplit, List.isPrefixOf, List.takeWhile, List.dropWhile]
    · have h2 : (c != d) = true := by simpa [bne_iff_ne] using fun e => h e.symm
      have h3 : (d == c) = false := by simpa using h
      simp [genSplit, List.isPrefixOf, List.takeWhile, List.dropWhile, h2, h3, ih]

theorem Split_single (s : String) (d : Char) :
    Split s (String.mk [d]) = (genSplit [d] s.data 0 []).map String.mk := by
  simp [Split]

theorem dropWhile_ne_of_mem (d : Char) (s : List Char) (h : d ∈ s) :
    s.dropWhile (· != d) = d :: (s.dropWhile (· != d)).drop 1 := by
  induction s with
  | nil => simp at h
  | cons c rest ih =>
    by_cases hc : c = d
    · subst hc; simp [List.dropWhile]
    · have h2 : (c != d) = true := by simpa [bne_iff_ne] using hc
      have h3 : d ∈ rest := by
        rcases List.mem_cons.mp h with e | e
        · exact absurd e.symm hc
        · exact e
      simpa [List.dropWhile, h2] using ih h3

theorem dropWhile_ne_of_not_mem (d : Char) (s : List Char) (h : d ∉ s) :
    s.dropWhile (· != d) = [] := by
  rw [List.dropWhile_eq_nil_iff]
  intro x hx
  simp only [bne_iff_ne, ne_eq]
  rintro rfl
  exact h hx

theorem takeWhile_ne_of_not_mem (d : Char) (s : List Char) (h : d ∉ s) :
    s.takeWhile (· != d) = s := by
  rw [List.takeWhile_eq_self_iff]
  intro x hx
  simp only [bne_iff_ne, ne_eq]
  rintro rfl
  exact h hx

theorem genSplit_of_mem (d : Char) (s : List Char) (h : d ∈ s) :
    ∃ tail, genSplit [d] s 0 [] =
      s.takeWhile (· != d) :: ((s.dropWhile (· != d)).drop 1).takeWhile (· != d) :: tail := by
  rw [genSplit_single]
  have hd := dropWhile_ne_of_mem d s h
  generalize s.dropWhile (· != d) = l at hd ⊢
  cases l with
  | nil => simp at hd
  | cons x rest =>
    refine ⟨match rest.dropWhile (· != d) with
      | [] => []
      | _ :: rest2 => genSplit [d] rest2 0 [], ?_⟩
    show (_ :: genSplit [d] rest 0 []) = _
    rw [genSplit_single d rest []]
    simp only [List.reverse_nil, List.nil_append, List.drop_succ_cons, List.drop_zero]

theorem genSplit_of_not_mem (d : Char) (s : List Char) (h : d ∉ s) :
    genSplit [d] s 0 [] = [s] := by
  rw [genSplit_single, dropWhile_ne_of_not_mem d s h, takeWhile_ne_of_not_mem d s h]
  simp

/-- With a comma in `data`, the first two elements of the split are the text
before the first comma and the text up to the next one. -/
theorem csvUnmarshal_of_comma (m : msg) (data : String) (h : ',' ∈ data.data) :
    m.csvUnmarshal data =
      .ok (⟨String.mk (data.data.takeWhile (· != ',')),
            String.mk (((data.data.dropWhile (· != ',')).drop 1).takeWhile (· != ','))⟩,
           none) := by
  have hs : Split data "," = (genSplit [','] data.data 0 []).map String.mk :=
    Split_single data ','
  obtain ⟨tail, ht⟩ := genSplit_of_mem ',' data.data h
  rw [msg.csvUnmarshal, hs, ht]
  simp [index, bind, Except.bind, pure, Except.pure]

/-- Without a comma the split has one element and `strs[1]` is out of
range. -/
theorem csvUnmarshal_no_comma (m : msg) (data : String) (h : ',' ∉ data.data) :
    m.csvUnmarshal data = .error (.indexOutOfRange 1 1) := by
  have hs : Split data "," = (genSplit [','] data.data 0 []).map String.mk :=
    Split_single data ','
  rw [msg.csvUnmarshal, hs, genSplit_of_not_mem ',' data.data h]
  simp [index, bind, Except.bind, pure, Except.pure]

theorem takeWhile_sep (d : Char) (a l : List Char) (ha : d ∉ a) :
    (a ++ d :: l).takeWhile (· != d) = a := by
  have hp : ∀ x ∈ a, (x != d) = true := by
    intro x hx
    simp only [bne_iff_ne, ne_eq]
    rintro rfl
    exact ha hx
  rw [List.takeWhile_append_of_pos hp]
  simp [List.takeWhile]

theorem dropWhile_sep (d : Char) (a l : List Char) (ha : d ∉ a) :
    (a ++ d :: l).dropWhile (· != d) = d :: l := by
  have hp : ∀ x ∈ a, (x != d) = true := by
    intro x hx
    simp only [bne_iff_ne, ne_eq]
    rintro rfl
    exact ha hx
  rw [List.dropWhile_append_of_pos hp]
  simp [List.dropWhile]

/-- A record of two comma-free fields decodes to those fields. -/
theorem csvUnmarshal_two_fields (m : msg) (a b : String)
    (ha : ',' ∉ a.data) (hb : ',' ∉ b.data) :
    m.csvUnmarshal (a ++ "," ++ b) = .ok (⟨a, b⟩, none) := by
  have hd : (a ++ "," ++ b).data = a.data ++ ',' :: b.data := by
    simp [String.data_append]
  have hmem : ',' ∈ (a ++ "," ++ b).data := by rw [hd]; simp
  rw [csvUnmarshal_of_comma m _ hmem, hd, takeWhile_sep _ _ _ ha, dropWhile_sep _ _ _ ha]
  simp [takeWhile_ne_of_not_mem _ _ hb]

/-- Whatever follows the second comma of a record is dropped. -/
theorem csvUnmarshal_three_fields (m : msg) (a b rest : String)
    (ha : ',' ∉ a.data) (hb : ',' ∉ b.data) :
    m.csvUnmarshal (a ++ "," ++ b ++ "," ++ rest) = .ok (⟨a, b⟩, none) := by
  have hd : (a ++ "," ++ b ++ "," ++ rest).data
      = a.data ++ ',' :: (b.data ++ ',' :: rest.data) := by
    simp [String.data_append]
  have hmem : ',' ∈ (a ++ "," ++ b ++ "," ++ rest).data := by rw [hd]; simp
  rw [csvUnmarshal_of_comma m _ hmem, hd, takeWhile_sep _ _ _ ha, dropWhile_sep _ _ _ ha]
  simp [takeWhile_sep _ _ _ hb]

/-! ## Lemmas on the registry and on `SetProto` -/

theorem protosOk_iff (enc : Encoding) (key : String) :
    protosOk enc key = true ↔ key ∈ ["json", "xml", "csv"] := by
  simp only [protosOk, protos, List.lookup]
  by_cases h1 : key = "json"
  · subst h1; simp
  · by_cases h2 : key = "xml"
    · subst h2; simp
    · by_cases h3 : key = "csv"
      · subst h3; simp
      · have e1 : (key == "json") = false := by simpa using h1
        have e2 : (key == "xml") = false := by simpa using h2
        have e3 : (key == "csv") = false := by simpa using h3
        simp [e1, e2, e3, h1, h2, h3]

theorem protosAt_registered (enc : Encoding) (key : String)
    (h : key ∈ ["json", "xml", "csv"]) :
    ∃ dec enc2, protosAt enc key = ⟨some dec, some enc2⟩ := by
  simp only [List.mem_cons, List.mem_singleton, List.not_mem_nil, or_false] at h
  rcases h with rfl | rfl | rfl
  · exact ⟨_, _, rfl⟩
  · exact ⟨_, _, rfl⟩
  · exact ⟨_, _, rfl⟩

theorem SetProto_reject_len (enc : Encoding) (f : String → String → HandlerFunc)
    (w : ResponseWriter) (r : Request)
    (h : (Split (r.Header.Get "Content-type") "/").length ≠ 2) :
    SetProto enc f w r = .ok (httpError w "not supported proto" 400) := by
  simp [SetProto, h, bind, Except.bind, pure, Except.pure, StatusBadRequest]

theorem SetProto_reject_key (enc : Encoding) (f : String → String → HandlerFunc)
    (w : ResponseWriter) (r : Request) (a p : String)
    (h : Split (r.Header.Get "Content-type") "/" = [a, p]) (hp : protosOk enc p = false) :
    SetProto enc f w r = .ok (httpError w "not supported proto" 400) := by
  simp [SetProto, h, hp, index, bind, Except.bind, pure, Except.pure, StatusBadRequest]

theorem SetProto_accept (enc : Encoding) (f : String → String → HandlerFunc)
    (w : ResponseWriter) (r : Request) (a p b q : String)
    (h : Split (r.Header.Get "Content-type") "/" = [a, p]) (hp : protosOk enc p = true)
    (h2 : Split (r.Header.Get "Response-type") "/" = [b, q]) (hq : protosOk enc q = true) :
    SetProto enc f w r = f p q w r := by
  simp [SetProto, h, hp, h2, hq, index, bind, Except.bind, pure, Except.pure]
  cases f p q w r <;> rfl

theorem SetProto_default_key (enc : Encoding) (f : String → String → HandlerFunc)
    (w : ResponseWriter) (r : Request) (a p b q : String)
    (h : Split (r.Header.Get "Content-type") "/" = [a, p]) (hp : protosOk enc p = true)
    (h2 : Split (r.Header.Get "Response-type") "/" = [b, q]) (hq : protosOk enc q = false) :
    SetProto enc f w r = f p p w r := by
  simp [SetProto, h, hp, h2, hq, index, bind, Except.bind, pure, Except.pure]
  cases f p p w r <;> rfl

theorem SetProto_default_len (enc : Encoding) (f : String → String → HandlerFunc)
    (w : ResponseWriter) (r : Request) (a p : String)
    (h : Split (r.Header.Get "Content-type") "/" = [a, p]) (hp : protosOk enc p = true)
    (h2 : (Split (r.Header.Get "Response-type") "/").length ≠ 2) :
    SetProto enc f w r = f p p w r := by
  simp [SetProto, h, hp, h2, index, bind, Except.bind, pure, Except.pure]
  cases f p p w r <;> rfl

/-! ## Claims on the business transform and the CSV methods -/

/-- C5: `processMsg` is a total function of the message; `validate` holds
exactly when `Name` and `Text` are both non-empty, in which case the reply is
`OK` with the text `got msg::` followed by the message text, and otherwise the
reply is `NOTOK` with the text `did not get it`. -/
theorem processMsg_spec (m : msg) :
    (validate m = true ↔ m.Name ≠ "" ∧ m.Text ≠ "") ∧
    (m.Name ≠ "" ∧ m.Text ≠ "" → processMsg m = ⟨"OK", "got msg::" ++ m.Text⟩) ∧
    (m.Name = "" ∨ m.Text = "" → processMsg m = ⟨"NOTOK", "did not get it"⟩) := by
  have hv : validate m = true ↔ m.Name ≠ "" ∧ m.Text ≠ "" := by
    simp [validate]
  refine ⟨hv, ?_, ?_⟩
  · intro h
    simp [processMsg, hv.mpr h]
  · intro h
    have : ¬ validate m = true := by
      rw [hv]
      rcases h with h | h <;> simp [h]
    simp [processMsg, this]

/-- C8: on data with at least one comma `csvUnmarshal` returns no error, sets
`Name` to the text before the first comma and `Text` to the text between the
first comma and the second one (or the end of the data), and drops whatever
follows the second comma; the wire `a,b,c` of name `a,b` and text `c` decodes
to name `a` and text `b`. -/
theorem csvUnmarshal_comma_fragility (m : msg) (data : String) (h : ',' ∈ data.data) :
    m.csvUnmarshal data =
        .ok (⟨String.mk (data.data.takeWhile (· != ',')),
              String.mk (((data.data.dropWhile (· != ',')).drop 1).takeWhile (· != ','))⟩,
             none) ∧
    (∀ a b : String, ',' ∉ a.data → ',' ∉ b.data →
        (data = a ++ "," ++ b → m.csvUnmarshal data = .ok (⟨a, b⟩, none)) ∧
        (∀ rest : String, data = a ++ "," ++ b ++ "," ++ rest →
          m.csvUnmarshal data = .ok (⟨a, b⟩, none))) ∧
    (m.csvUnmarshal "a,b,c" = .ok (⟨"a", "b"⟩, none) ∧
      (⟨"a", "b"⟩ : msg) ≠ ⟨"a,b", "c"⟩) := by
  refine ⟨csvUnmarshal_of_comma m data h, ?_, ?_⟩
  · intro a b ha hb
    refine ⟨?_, ?_⟩
    · rintro rfl
      exact csvUnmarshal_two_fields m a b ha hb
    · rintro rest rfl
      exact csvUnmarshal_three_fields m a b rest ha hb
  · exact ⟨csvUnmarshal_three_fields m "a" "b" "c" (by decide) (by decide), by decide⟩

/-- Instance of C8 at the wire `a,b,c`. -/
theorem csvUnmarshal_comma_fragility_witness :
    ',' ∈ ("a,b,c" : String).data ∧
    msg.zero.csvUnmarshal "a,b,c" = .ok (⟨"a", "b"⟩, none) :=
  ⟨by decide, by
    have h := (csvUnmarshal_comma_fragility msg.zero "a,b,c" (by decide)).1
    rw [h]
    decide⟩

/-! ## Claims on the middleware -/

theorem protosOk_false (enc : Encoding) (key : String)
    (h : key ∉ ["json", "xml", "csv"]) : protosOk enc key = false :=
  Bool.eq_false_iff.mpr (mt (protosOk_iff enc key).mp h)

/-- C1: `SetProto` hands the request to the handler built by `f` exactly when
the `Content-type` value splits on `/` into two segments of which the second
is one of `json`, `xml`, `csv`, and then that segment is the `protoFrom` given
to `f`; in every other case the outcome is the same for every `f`: the error
`not supported proto` with status 400. So it is for a missing header, for a
value with no `/` or with two of them, and for the second segments `bar` and
`JSON`. -/
theorem SetProto_inbound (enc : Encoding) (w : ResponseWriter) (r : Request) :
    (∀ p, (Split (r.Header.Get "Content-type") "/").length = 2 →
        (Split (r.Header.Get "Content-type") "/")[1]? = some p →
        p ∈ ["json", "xml", "csv"] →
        ∃ protoTo, ∀ f, SetProto enc f w r = f p protoTo w r) ∧
    ((¬ ∃ p, (Split (r.Header.Get "Content-type") "/").length = 2 ∧
        (Split (r.Header.Get "Content-type") "/")[1]? = some p ∧
        p ∈ ["json", "xml", "csv"]) →
      ∀ f, SetProto enc f w r = .ok (httpError w "not supported proto" 400)) ∧
    (∀ f method body,
      SetProto enc f w ⟨method, [], body⟩
        = .ok (httpError w "not supported proto" 400)) ∧
    (∀ f method body,
      SetProto enc f w ⟨method, [("Content-type", ["json"])], body⟩
        = .ok (httpError w "not supported proto" 400)) ∧
    (∀ f method body,
      SetProto enc f w ⟨method, [("Content-type", ["a/b/json"])], body⟩
        = .ok (httpError w "not supported proto" 400)) ∧
    (∀ f method body,
      SetProto enc f w ⟨method, [("Content-type", ["foo/bar"])], body⟩
        = .ok (httpError w "not supported proto" 400)) ∧
    (∀ f method body,
      SetProto enc f w ⟨method, [("Content-type", ["x/JSON"])], body⟩
        = .ok (httpError w "not supported proto" 400)) := by
  refine ⟨?_, ?_, ?_, ?_, ?_, ?_, ?_⟩
  · intro p hlen hp hreg
    obtain ⟨a, p2, hsplit⟩ := List.length_eq_two.mp hlen
    have hpp : p2 = p := by simpa [hsplit] using hp
    subst hpp
    have hok := (protosOk_iff enc p2).mpr hreg
    by_cases hl : (Split (r.Header.Get "Response-type") "/").length = 2
    · obtain ⟨b, q, hq⟩ := List.length_eq_two.mp hl
      cases hqk : protosOk enc q with
      | true => exact ⟨q, fun f => SetProto_accept enc f w r a p2 b q hsplit hok hq hqk⟩
      | false => exact ⟨p2, fun f => SetProto_default_key enc f w r a p2 b q hsplit hok hq hqk⟩
    · exact ⟨p2, fun f => SetProto_default_len enc f w r a p2 hsplit hok hl⟩
  · intro hno f
    by_cases hlen : (Split (r.Header.Get "Content-type") "/").length = 2
    · obtain ⟨a, p, hsplit⟩ := List.length_eq_two.mp hlen
      refine SetProto_reject_key enc f w r a p hsplit (protosOk_false enc p ?_)
      intro hreg
      exact hno ⟨p, hlen, by simp [hsplit], hreg⟩
    · exact SetProto_reject_len enc f w r hlen
  · intro f method body
    exact SetProto_reject_len enc f w _ (by dsimp only; decide)
  · intro f method body
    exact SetProto_reject_len enc f w _ (by dsimp only; decide)
  · intro f method body
    exact SetProto_reject_len enc f w _ (by dsimp only; decide)
  · intro f method body
    exact SetProto_reject_key enc f w _ "foo" "bar" (by dsimp only; decide)
      (protosOk_false enc _ (by decide))
  · intro f method body
    exact SetProto_reject_key enc f w _ "x" "JSON" (by dsimp only; decide)
      (protosOk_false enc _ (by decide))

/-- C2: when `Content-type` resolves to the registered format `protoFrom`,
the `protoTo` given to `f` is the second segment of `Response-type` if that
value splits on `/` into two segments of which the second is registered, and
is `protoFrom` otherwise; the outcome is always that of the handler built by
`f`, never an error raised for the `Response-type` header, and `protoTo` is a
registered format. -/
theorem SetProto_outbound (enc : Encoding) (f : String → String → HandlerFunc)
    (w : ResponseWriter) (r : Request) (a protoFrom : String)
    (hct : Split (r.Header.Get "Content-type") "/" = [a, protoFrom])
    (hreg : protoFrom ∈ ["json", "xml", "csv"]) :
    (∀ b q, Split (r.Header.Get "Response-type") "/" = [b, q] →
        q ∈ ["json", "xml", "csv"] →
        SetProto enc f w r = f protoFrom q w r) ∧
    ((¬ ∃ b q, Split (r.Header.Get "Response-type") "/" = [b, q] ∧
        q ∈ ["json", "xml", "csv"]) →
      SetProto enc f w r = f protoFrom protoFrom w r) ∧
    (∃ protoTo, protoTo ∈ ["json", "xml", "csv"] ∧
      SetProto enc f w r = f protoFrom protoTo w r) := by
  have hok := (protosOk_iff enc protoFrom).mpr hreg
  have hcases : ∀ b q, Split (r.Header.Get "Response-type") "/" = [b, q] →
      q ∈ ["json", "xml", "csv"] → SetProto enc f w r = f protoFrom q w r := by
    intro b q hq hqreg
    exact SetProto_accept enc f w r a protoFrom b q hct hok hq ((protosOk_iff enc q).mpr hqreg)
  have hdefault : (¬ ∃ b q, Split (r.Header.Get "Response-type") "/" = [b, q] ∧
      q ∈ ["json", "xml", "csv"]) → SetProto enc f w r = f protoFrom protoFrom w r := by
    intro hno
    by_cases hl : (Split (r.Header.Get "Response-type") "/").length = 2
    · obtain ⟨b, q, hq⟩ := List.length_eq_two.mp hl
      exact SetProto_default_key enc f w r a protoFrom b q hct hok hq
        (protosOk_false enc q fun hqreg => hno ⟨b, q, hq, hqreg⟩)
    · exact SetProto_default_len enc f w r a protoFrom hct hok hl
  refine ⟨hcases, hdefault, ?_⟩
  by_cases hex : ∃ b q, Split (r.Header.Get "Response-type") "/" = [b, q] ∧
      q ∈ ["json", "xml", "csv"]
  · obtain ⟨b, q, hq, hqreg⟩ := hex
    exact ⟨q, hqreg, hcases b q hq hqreg⟩
  · exact ⟨protoFrom, hreg, hdefault hex⟩

/-- Instance of C2: `Content-type: x/csv` with `Response-type: x/json` gives
the handler for `csv` to `json`, and with `Response-type: x/yaml` the handler
for `csv` to `csv`. -/
theorem SetProto_outbound_witness :
    (∀ f : String → String → HandlerFunc,
      SetProto rejecting f ⟨[]⟩
          ⟨"POST", [("Content-type", ["x/csv"]), ("Response-type", ["x/json"])], none⟩
        = f "csv" "json" ⟨[]⟩
          ⟨"POST", [("Content-type", ["x/csv"]), ("Response-type", ["x/json"])], none⟩) ∧
    (∀ f : String → String → HandlerFunc,
      SetProto rejecting f ⟨[]⟩
          ⟨"POST", [("Content-type", ["x/csv"]), ("Response-type", ["x/yaml"])], none⟩
        = f "csv" "csv" ⟨[]⟩
          ⟨"POST", [("Content-type", ["x/csv"]), ("Response-type", ["x/yaml"])], none⟩) :=
  ⟨fun f => (SetProto_outbound rejecting f ⟨[]⟩
      ⟨"POST", [("Content-type", ["x/csv"]), ("Response-type", ["x/json"])], none⟩
      "x" "csv" (by decide) (by decide)).1 "x" "json" (by decide) (by decide),
   fun f => (SetProto_outbound rejecting f ⟨[]⟩
      ⟨"POST", [("Content-type", ["x/csv"]), ("Response-type", ["x/yaml"])], none⟩
      "x" "csv" (by decide) (by decide)).2.1 (by
        rintro ⟨b, q, hq, hqreg⟩
        have h2 : Split (Header.Get [("Content-type", ["x/csv"]), ("Response-type", ["x/yaml"])]
            "Response-type") "/" = ["x", "yaml"] := by decide
        have h3 : [b, q] = ["x", "yaml"] := hq.symm.trans h2
        have h4 : q = "yaml" := by injection h3 with _ t; injection t
        subst h4
        exact absurd hqreg (by decide))⟩

/-- C9: `SetMethod("POST", f)` gives the request to `f` once, unchanged, when
the method is exactly `POST`; for every other method the outcome is the same
for every `f`: the error `wrong http method` with status 400. On the route of
`main` a request with another method, `GET` for one, gets that answer whatever
its headers and body are, so neither negotiation nor decoding runs. -/
theorem SetMethod_post (f : HandlerFunc) (w : ResponseWriter) (r : Request) :
    (r.Method = "POST" → SetMethod "POST" f w r = f w r) ∧
    (r.Method ≠ "POST" →
      ∀ g, SetMethod "POST" g w r = .ok (httpError w "wrong http method" 400)) ∧
    (r.Method ≠ "POST" →
      ∀ enc, processRoute enc w r = .ok (httpError w "wrong http method" 400)) ∧
    (∀ enc header body,
      processRoute enc w ⟨"GET", header, body⟩
        = .ok (httpError w "wrong http method" 400)) := by
  refine ⟨?_, ?_, ?_, ?_⟩
  · intro h
    simp [SetMethod, h]
  · intro h g
    simp [SetMethod, h, StatusBadRequest]
  · intro h enc
    simp [processRoute, SetMethod, MethodPost, h, StatusBadRequest]
  · intro enc header body
    simp [processRoute, SetMethod, MethodPost, StatusBadRequest]

/-- C10: `csvUnmarshal` is not safe on every input. On data without a comma
(the empty body, `abc`) the split has one element and reading `strs[1]` panics
with an index out of range; `fromCSV` and the route of `main` pass the panic
on, so a `POST` with `Content-type: x/csv` and an empty body gets no
response. -/
theorem csvUnmarshal_index_panic :
    msg.zero.csvUnmarshal "" = .error (.indexOutOfRange 1 1) ∧
    msg.zero.csvUnmarshal "abc" = .error (.indexOutOfRange 1 1) ∧
    Split "" "," = [""] ∧
    fromCSV "" .ptrMsg msg.zero = .error (.indexOutOfRange 1 1) ∧
    (∀ enc w,
      processRoute enc w ⟨"POST", [("Content-type", ["x/csv"])], some ⟨"", none⟩⟩
        = .error (.indexOutOfRange 1 1)) ∧
    (∀ (m : msg) (data : String), ',' ∉ data.data →
      m.csvUnmarshal data = .error (.indexOutOfRange 1 1)) := by
  refine ⟨by decide, by decide, by decide, by decide, ?_, csvUnmarshal_no_comma⟩
  intro enc w
  have h := SetProto_default_len enc (ProcessMsgHandlerFunc enc) w
    ⟨"POST", [("Content-type", ["x/csv"])], some ⟨"", none⟩⟩ "x" "csv"
    (by decide) ((protosOk_iff enc _).mpr (by decide)) (by decide)
  simp only [processRoute, SetMethod, MethodPost, if_true, h]
  rfl

/-! ## Claims on the codecs and the handler -/

theorem httpError_inj (w : ResponseWriter) (a b : String) (c d : Nat)
    (h : httpError w a c = httpError w b d) : a = b ∧ c = d := by
  simpa [httpError] using h

theorem Write_ne_httpError (w : ResponseWriter) (bytes text : String) (code : Nat) :
    w.Write bytes ≠ httpError w text code := by
  simp [ResponseWriter.Write, httpError]

theorem Decode_fromCSV_error (body : Option ReadCloser) (m : msg) (e : String)
    (h : Decode body (some fromCSV) .ptrMsg msg.zero = .ok (m, some e)) :
    e = "nothing to do" ∨ e = "read req body err" := by
  cases body with
  | none =>
    simp only [Decode, Except.ok.injEq, Prod.mk.injEq, Option.some.injEq] at h
    exact Or.inl h.2.symm
  | some rc =>
    obtain ⟨data, err⟩ := rc
    cases err with
    | some x =>
      simp only [Decode, ReadAll, Except.ok.injEq, Prod.mk.injEq, Option.some.injEq] at h
      exact Or.inr h.2.symm
    | none =>
      exfalso
      have hc : Decode (some ⟨data, none⟩) (some fromCSV) .ptrMsg msg.zero
          = msg.zero.csvUnmarshal data := rfl
      rw [hc] at h
      by_cases hm : ',' ∈ data.data
      · rw [csvUnmarshal_of_comma _ _ hm] at h
        simp at h
      · rw [csvUnmarshal_no_comma _ _ hm] at h
        simp at h

/-- C3: `fromCSV` returns the error `Csver interface not impled` and leaves
the value as it was when the value has no `csvUnmarshal`, and otherwise returns
what the value's `csvUnmarshal` returns on the data; `toCSV` returns no bytes
and the same error when the value has no `csvMarshal`, and otherwise what the
value's `csvMarshal` returns. The handler passes a pointer to a `msg` to the
decoder and a `reply` to the encoder, which have the methods, so the error
never comes from `fromCSV` or `toCSV` on the request path. -/
theorem csv_capability (data : String) (t : Dyn) (v : t.Val) :
    (assertCsvUnmarshaler t v = none →
      fromCSV data t v = .ok (v, some "Csver interface not impled")) ∧
    (∀ csvUnmarshal, assertCsvUnmarshaler t v = some csvUnmarshal →
      fromCSV data t v = csvUnmarshal data) ∧
    (assertCsvMarshaler t v = none →
      toCSV t v = .ok ("", some "Csver interface not impled")) ∧
    (∀ csvMarshal, assertCsvMarshaler t v = some csvMarshal →
      toCSV t v = csvMarshal ()) ∧
    ((assertCsvUnmarshaler t v).isSome = true ↔ t = .ptrMsg ∨ t = .nilPtrMsg) ∧
    ((assertCsvMarshaler t v).isSome = true ↔
      t = .reply ∨ t = .ptrReply ∨ t = .nilPtrReply) ∧
    (∀ m : msg, fromCSV data .ptrMsg m = m.csvUnmarshal data ∧
      ∀ m2, fromCSV data .ptrMsg m ≠ .ok (m2, some "Csver interface not impled")) ∧
    (∀ r : reply, toCSV .reply r = .ok r.csvMarshal ∧ r.csvMarshal.2 = none) ∧
    (∀ enc protoTo w r,
      ProcessMsgHandlerFunc enc "csv" protoTo w r
        ≠ .ok (httpError w "Csver interface not impled" 400)) ∧
    (∀ enc protoFrom w r,
      ProcessMsgHandlerFunc enc protoFrom "csv" w r
        ≠ .ok (httpError w "Csver interface not impled" 500)) := by
  refine ⟨?_, ?_, ?_, ?_, ?_, ?_, ?_, ?_, ?_, ?_⟩
  · intro h
    simp [fromCSV, h]
  · intro g h
    simp [fromCSV, h]
  · intro h
    simp [toCSV, h]
  · intro g h
    simp [toCSV, h]
  · cases t <;> simp [assertCsvUnmarshaler]
  · cases t <;> simp [assertCsvMarshaler]
  · intro m
    refine ⟨rfl, ?_⟩
    intro m2 h
    have hc : fromCSV data .ptrMsg m = m.csvUnmarshal data := rfl
    rw [hc] at h
    by_cases hm : ',' ∈ data.data
    · rw [csvUnmarshal_of_comma _ _ hm] at h
      simp at h
    · rw [csvUnmarshal_no_comma _ _ hm] at h
      simp at h
  · intro r
    exact ⟨rfl, rfl⟩
  · intro enc protoTo w r h
    have hp : (protosAt enc "csv").From = some fromCSV := rfl
    simp only [ProcessMsgHandlerFunc, hp] at h
    cases hd : Decode r.Body (some fromCSV) .ptrMsg msg.zero with
    | error p => simp [hd] at h
    | ok res =>
      obtain ⟨m, e⟩ := res
      cases e with
      | some e =>
        simp only [hd, Except.ok.injEq] at h
        have h1 := (httpError_inj _ _ _ _ _ h).1
        rcases Decode_fromCSV_error _ _ _ hd with h2 | h2 <;>
          · rw [h2] at h1
            exact absurd h1 (by decide)
      | none =>
        simp only [hd] at h
        cases he : callTo (protosAt enc protoTo).To .reply (processMsg m) with
        | error p => simp [he] at h
        | ok res2 =>
          obtain ⟨bytes, e2⟩ := res2
          cases e2 with
          | some e2 =>
            simp only [he, Except.ok.injEq] at h
            exact absurd (httpError_inj _ _ _ _ _ h).2 (by decide)
          | none =>
            simp only [he, Except.ok.injEq] at h
            exact Write_ne_httpError _ _ _ _ h
  · intro enc protoFrom w r h
    have hp : (protosAt enc "csv").To = some toCSV := rfl
    simp only [ProcessMsgHandlerFunc, hp] at h
    cases hd : Decode r.Body (protosAt enc protoFrom).From .ptrMsg msg.zero with
    | error p => simp [hd] at h
    | ok res =>
      obtain ⟨m, e⟩ := res
      cases e with
      | some e =>
        simp only [hd, Except.ok.injEq] at h
        exact absurd (httpError_inj _ _ _ _ _ h).2 (by decide)
      | none =>
        simp only [hd] at h
        have he : callTo (some toCSV) .reply (processMsg m)
            = .ok ((processMsg m).csvMarshal.1, none) := rfl
        simp only [he, Except.ok.injEq] at h
        exact Write_ne_httpError _ _ _ _ h

theorem protosAt_From_marshal (enc : Encoding) (jm xm : ToFn) (key : String) :
    (protosAt { enc with jsonMarshal := jm, xmlMarshal := xm } key).From
      = (protosAt enc key).From := by
  simp only [protosAt, protos, List.lookup]
  cases key == "json" <;> cases key == "xml" <;> cases key == "csv" <;> rfl

/-- C4: for registered `protoFrom` and `protoTo` both functions of the
registry exist, and the handler does one of three things. If the decode step
returns an error, the answer is that error's text with status 400, whichever
encoders are installed. If decoding gives `m` and the encoder returns an error
on `processMsg m`, the answer is that error's text with status 500. If both
succeed, the answer is one `Write` of the encoded bytes, with status 200 on a
fresh writer. `http.Error` adds no `Write` call, so no bytes of a reply are
written in the two failure cases. -/
theorem ProcessMsgHandlerFunc_pipeline (enc : Encoding) (protoFrom protoTo : String)
    (w : ResponseWriter) (r : Request)
    (hfrom : protoFrom ∈ ["json", "xml", "csv"]) (hto : protoTo ∈ ["json", "xml", "csv"]) :
    ((protosAt enc protoFrom).From.isSome = true ∧
      (protosAt enc protoTo).To.isSome = true) ∧
    (∀ m e, Decode r.Body (protosAt enc protoFrom).From .ptrMsg msg.zero = .ok (m, some e) →
      ProcessMsgHandlerFunc enc protoFrom protoTo w r = .ok (httpError w e 400) ∧
      ∀ jm xm, ProcessMsgHandlerFunc { enc with jsonMarshal := jm, xmlMarshal := xm }
        protoFrom protoTo w r = .ok (httpError w e 400)) ∧
    (∀ m e bytes,
      Decode r.Body (protosAt enc protoFrom).From .ptrMsg msg.zero = .ok (m, none) →
      callTo (protosAt enc protoTo).To .reply (processMsg m) = .ok (bytes, some e) →
      ProcessMsgHandlerFunc enc protoFrom protoTo w r = .ok (httpError w e 500)) ∧
    (∀ m bytes,
      Decode r.Body (protosAt enc protoFrom).From .ptrMsg msg.zero = .ok (m, none) →
      callTo (protosAt enc protoTo).To .reply (processMsg m) = .ok (bytes, none) →
      ProcessMsgHandlerFunc enc protoFrom protoTo w r = .ok (w.Write bytes) ∧
      (w.calls = [] → (w.Write bytes).status = 200)) ∧
    (∀ e code bytes, Call.Write bytes ∈ (httpError w e code).calls →
      Call.Write bytes ∈ w.calls) := by
  refine ⟨⟨?_, ?_⟩, ?_, ?_, ?_, ?_⟩
  · obtain ⟨d, e, h⟩ := protosAt_registered enc protoFrom hfrom
    simp [h]
  · obtain ⟨d, e, h⟩ := protosAt_registered enc protoTo hto
    simp [h]
  · intro m e hd
    refine ⟨?_, ?_⟩
    · simp [ProcessMsgHandlerFunc, hd, StatusBadRequest]
    · intro jm xm
      simp [ProcessMsgHandlerFunc, protosAt_From_marshal, hd, StatusBadRequest]
  · intro m e bytes hd he
    simp [ProcessMsgHandlerFunc, hd, he, StatusInternalServerError]
  · intro m bytes hd he
    refine ⟨?_, ?_⟩
    · simp [ProcessMsgHandlerFunc, hd, he]
    · intro hw
      simp [ResponseWriter.Write, ResponseWriter.status, hw, StatusOK]
  · intro e code bytes h
    simpa [httpError] using h

/-- Instance of C4 on a fresh writer: a nil body with `csv` to `csv` is
answered 400 `nothing to do`, the record `a,b` with `csv` to `json` under
encoders that reject everything is answered 500, and with `csv` to `csv` it is
answered with the bytes `OK,got msg::b`. -/
theorem ProcessMsgHandlerFunc_pipeline_witness :
    ProcessMsgHandlerFunc rejecting "csv" "csv" ⟨[]⟩ ⟨"POST", [], none⟩
      = .ok ⟨[.Error "nothing to do" 400]⟩ ∧
    ProcessMsgHandlerFunc rejecting "csv" "json" ⟨[]⟩ ⟨"POST", [], some ⟨"a,b", none⟩⟩
      = .ok ⟨[.Error "rejected" 500]⟩ ∧
    ProcessMsgHandlerFunc rejecting "csv" "csv" ⟨[]⟩ ⟨"POST", [], some ⟨"a,b", none⟩⟩
      = .ok ⟨[.Write "OK,got msg::b"]⟩ :=
  ⟨((ProcessMsgHandlerFunc_pipeline rejecting "csv" "csv" ⟨[]⟩ ⟨"POST", [], none⟩
      (by decide) (by decide)).2.1 msg.zero "nothing to do" (by decide)).1,
   (ProcessMsgHandlerFunc_pipeline rejecting "csv" "json" ⟨[]⟩
      ⟨"POST", [], some ⟨"a,b", none⟩⟩
      (by decide) (by decide)).2.2.1 ⟨"a", "b"⟩ "rejected" "" (by decide) (by decide),
   ((ProcessMsgHandlerFunc_pipeline rejecting "csv" "csv" ⟨[]⟩
      ⟨"POST", [], some ⟨"a,b", none⟩⟩
      (by decide) (by decide)).2.2.2.1 ⟨"a", "b"⟩ "OK,got msg::b"
      (by decide) (by decide)).1⟩

theorem csvMarshal_ok (t : String) :
    reply.csvMarshal ⟨"OK", "got msg::" ++ t⟩ = ("OK,got msg::" ++ t, none) := by
  have h : "OK" ++ "," ++ ("got msg::" ++ t) = "OK,got msg::" ++ t := by
    rw [← String.append_assoc]
    rfl
  simp only [reply.csvMarshal, Join, List.foldl, h]

theorem processRoute_csv (enc : Encoding) (w : ResponseWriter) (body : Option ReadCloser) :
    processRoute enc w
        ⟨"POST", [("Content-type", ["x/csv"]), ("Response-type", ["x/csv"])], body⟩
      = ProcessMsgHandlerFunc enc "csv" "csv" w
        ⟨"POST", [("Content-type", ["x/csv"]), ("Response-type", ["x/csv"])], body⟩ := by
  have h := SetProto_accept enc (ProcessMsgHandlerFunc enc) w
    ⟨"POST", [("Content-type", ["x/csv"]), ("Response-type", ["x/csv"])], body⟩
    "x" "csv" "x" "csv" (by dsimp only; decide) ((protosOk_iff enc _).mpr (by decide))
    (by dsimp only; decide) ((protosOk_iff enc _).mpr (by decide))
  simp only [processRoute, SetMethod, MethodPost, if_true, h]

/-- C6 as stated fails: for the name `a,b` and the text `c` the body `a,b,c`
is answered with `OK,got msg::b`, not with `OK,got msg::c`. -/
theorem csv_exchange_counterexample :
    ("a,b" : String) ≠ "" ∧ ("c" : String) ≠ "" ∧
    processRoute rejecting ⟨[]⟩
        ⟨"POST", [("Content-type", ["x/csv"]), ("Response-type", ["x/csv"])],
          some ⟨"a,b" ++ "," ++ "c", none⟩⟩
      = .ok ⟨[.Write "OK,got msg::b"]⟩ ∧
    processRoute rejecting ⟨[]⟩
        ⟨"POST", [("Content-type", ["x/csv"]), ("Response-type", ["x/csv"])],
          some ⟨"a,b" ++ "," ++ "c", none⟩⟩
      ≠ .ok ⟨[.Write ("OK,got msg::" ++ "c")]⟩ := by
  decide

/-- C6, amended: for a non-empty name `n` and a non-empty text `t`, neither
containing a comma, the request with body `n,t`, `Content-type: x/csv` and
`Response-type: x/csv` is answered by one `Write` of the bytes `OK,got msg::`
followed by `t`, which is the CSV encoding of the reply `OK`, `got msg::t`; on
a fresh writer the status is 200. -/
theorem csv_exchange (enc : Encoding) (w : ResponseWriter) (n t : String)
    (hn : n ≠ "") (ht : t ≠ "") (hnc : ',' ∉ n.data) (htc : ',' ∉ t.data) :
    processRoute enc w
        ⟨"POST", [("Content-type", ["x/csv"]), ("Response-type", ["x/csv"])],
          some ⟨n ++ "," ++ t, none⟩⟩
      = .ok (w.Write ("OK,got msg::" ++ t)) ∧
    reply.csvMarshal ⟨"OK", "got msg::" ++ t⟩ = ("OK,got msg::" ++ t, none) ∧
    (w.calls = [] → (w.Write ("OK,got msg::" ++ t)).status = 200) := by
  refine ⟨?_, csvMarshal_ok t, ?_⟩
  · rw [processRoute_csv]
    have hp : protosAt enc "csv" = ⟨some fromCSV, some toCSV⟩ := rfl
    have hd : Decode (some ⟨n ++ "," ++ t, none⟩) (some fromCSV) .ptrMsg msg.zero
        = .ok (⟨n, t⟩, none) := csvUnmarshal_two_fields msg.zero n t hnc htc
    have hv : processMsg ⟨n, t⟩ = ⟨"OK", "got msg::" ++ t⟩ := by
      simp [processMsg, validate, hn, ht]
    have he : callTo (some toCSV) .reply (processMsg ⟨n, t⟩)
        = .ok ("OK,got msg::" ++ t, none) := by
      rw [hv]
      show Except.ok (reply.csvMarshal ⟨"OK", "got msg::" ++ t⟩) = _
      rw [csvMarshal_ok]
    simp only [ProcessMsgHandlerFunc, hp, hd, he]
  · intro hw
    simp [ResponseWriter.Write, ResponseWriter.status, hw, StatusOK]

/-- Instance of the amended C6 at the name `bob` and the text `hello`. -/
theorem csv_exchange_witness :
    processRoute rejecting ⟨[]⟩
        ⟨"POST", [("Content-type", ["x/csv"]), ("Response-type", ["x/csv"])],
          some ⟨"bob" ++ "," ++ "hello", none⟩⟩
      = .ok (ResponseWriter.Write ⟨[]⟩ ("OK,got msg::" ++ "hello")) :=
  (csv_exchange rejecting ⟨[]⟩ "bob" "hello" (by decide) (by decide) (by decide)
    (by decide)).1

/-- C7 as stated fails: a `POST` with `Content-type: x/csv` and an empty body
ends in the index panic of `csvUnmarshal`; it is answered neither with `read
req body err` nor with `nothing to do`. -/
theorem empty_body_counterexample :
    processRoute rejecting ⟨[]⟩
        ⟨"POST", [("Content-type", ["x/csv"])], some ⟨"", none⟩⟩
      = .error (.indexOutOfRange 1 1) ∧
    processRoute rejecting ⟨[]⟩
        ⟨"POST", [("Content-type", ["x/csv"])], some ⟨"", none⟩⟩
      ≠ .ok (httpError ⟨[]⟩ "read req body err" 400) ∧
    processRoute rejecting ⟨[]⟩
        ⟨"POST", [("Content-type", ["x/csv"])], some ⟨"", none⟩⟩
      ≠ .ok (httpError ⟨[]⟩ "nothing to do" 400) := by
  decide

/-- C7, amended: `Decode` returns `nothing to do` for a nil reader and `read
req body err` when reading fails, in both cases whatever the decode function
is and leaving the value as it was, and the handler answers with that text and
status 400. A body that was read, empty or not, goes to the format's decode
function and `Decode` returns what that function returns: for an empty body
the handler answers 400 with the decoder's own error text when the decoder
returns an error. -/
theorem Decode_body (proto : Option FromFn) (t : Dyn) (strct : t.Val) :
    Decode none proto t strct = .ok (strct, some "nothing to do") ∧
    (∀ data e, Decode (some ⟨data, some e⟩) proto t strct
      = .ok (strct, some "read req body err")) ∧
    (∀ data, Decode (some ⟨data, none⟩) proto t strct = callFrom proto data t strct) ∧
    (∀ enc protoFrom protoTo w method header,
      ProcessMsgHandlerFunc enc protoFrom protoTo w ⟨method, header, none⟩
        = .ok (httpError w "nothing to do" 400)) ∧
    (∀ enc protoFrom protoTo w method header data e,
      ProcessMsgHandlerFunc enc protoFrom protoTo w ⟨method, header, some ⟨data, some e⟩⟩
        = .ok (httpError w "read req body err" 400)) ∧
    (∀ enc protoFrom protoTo w method header m e,
      callFrom (protosAt enc protoFrom).From "" .ptrMsg msg.zero = .ok (m, some e) →
      ProcessMsgHandlerFunc enc protoFrom protoTo w ⟨method, header, some ⟨"", none⟩⟩
        = .ok (httpError w e 400)) := by
  refine ⟨rfl, fun _ _ => rfl, fun _ => rfl, ?_, ?_, ?_⟩
  · intro enc protoFrom protoTo w method header
    simp [ProcessMsgHandlerFunc, Decode, StatusBadRequest]
  · intro enc protoFrom protoTo w method header data e
    simp [ProcessMsgHandlerFunc, Decode, ReadAll, StatusBadRequest]
  · intro enc protoFrom protoTo w method header m e h
    simp [ProcessMsgHandlerFunc, Decode, ReadAll, h, StatusBadRequest]

/-- Instance of the amended C7: under decoders that reject everything, an
empty body sent as `json` is answered 400 with the decoder's text. -/
theorem Decode_body_witness :
    ProcessMsgHandlerFunc rejecting "json" "json" ⟨[]⟩ ⟨"POST", [], some ⟨"", none⟩⟩
      = .ok ⟨[.Error "rejected" 400]⟩ :=
  (Decode_body none .ptrMsg msg.zero).2.2.2.2.2 rejecting "json" "json" ⟨[]⟩ "POST" []
    msg.zero "rejected" rfl

end Multiproto
